import Mathlib

/-!
Verification of the request/response transformation pipeline of the
opencode-openai-codex-key plugin, as a shallow embedding of
`src/index.ts` (the plugin module and its fetch helpers).

Conventions of the embedding:
* HTTP machinery is modelled by plain data: a `Response` records status,
  status text, a header association list, and the body stream as the
  string of bytes it would yield; a separate flag records whether reading
  the body text would fail (the `clone.text()` call can reject).
* JavaScript `JSON.parse` is modelled by an executable recursive-descent
  parser over the character list; numbers are kept as their lexeme, which
  is enough for the uses in this module (the code only ever stringifies
  parsed values).
* Fallible JavaScript operations are modelled with `Option` / `Except`.
-/

namespace CodexPlugin

/-- A JSON value, as produced by the model of `JSON.parse`.  Numbers are
kept as their source lexeme; the pipeline only ever converts parsed
values back to strings. -/
inductive Json where
  | null : Json
  | bool : Bool → Json
  | num : String → Json
  | str : String → Json
  | arr : List Json → Json
  | obj : List (String × Json) → Json

/-- The double-quote character. -/
def quoteCh : Char := Char.ofNat 34

/-- The backslash character. -/
def backslashCh : Char := Char.ofNat 92

/-- The opening-brace character. -/
def lbraceCh : Char := Char.ofNat 123

/-- The closing-brace character. -/
def rbraceCh : Char := Char.ofNat 125

/-- Skip JSON whitespace. -/
def skipWs : List Char → List Char
  | [] => []
  | c :: rest =>
    if c = ' ' ∨ c = '\n' ∨ c = '\t' ∨ c = Char.ofNat 13 then skipWs rest
    else c :: rest

/-- Value of a hexadecimal digit. -/
def hexVal (c : Char) : Option Nat :=
  if c.isDigit then some (c.toNat - 48)
  else if 'a' ≤ c ∧ c ≤ 'f' then some (c.toNat - 87)
  else if 'A' ≤ c ∧ c ≤ 'F' then some (c.toNat - 55)
  else none

/-- Match an exact sequence of characters, returning the remainder. -/
def expectChars : List Char → List Char → Option (List Char)
  | [], l => some l
  | _ :: _, [] => none
  | c :: cr, x :: xr => if x = c then expectChars cr xr else none

/-- Parse the body of a JSON string literal (after the opening quote),
handling the escape sequences accepted by `JSON.parse` and rejecting raw
control characters. -/
def parseStringBody (acc : List Char) : List Char → Option (String × List Char)
  | [] => none
  | c :: rest =>
    if c = quoteCh then some (String.mk acc.reverse, rest)
    else if c = backslashCh then
      match rest with
      | [] => none
      | e :: rest2 =>
        if e = quoteCh then parseStringBody (quoteCh :: acc) rest2
        else if e = backslashCh then parseStringBody (backslashCh :: acc) rest2
        else if e = '/' then parseStringBody ('/' :: acc) rest2
        else if e = 'b' then parseStringBody (Char.ofNat 8 :: acc) rest2
        else if e = 'f' then parseStringBody (Char.ofNat 12 :: acc) rest2
        else if e = 'n' then parseStringBody ('\n' :: acc) rest2
        else if e = 'r' then parseStringBody (Char.ofNat 13 :: acc) rest2
        else if e = 't' then parseStringBody ('\t' :: acc) rest2
        else if e = 'u' then
          match rest2 with
          | h1 :: h2 :: h3 :: h4 :: rest6 =>
            match hexVal h1, hexVal h2, hexVal h3, hexVal h4 with
            | some a, some b, some c2, some d =>
              parseStringBody (Char.ofNat (((a * 16 + b) * 16 + c2) * 16 + d) :: acc) rest6
            | _, _, _, _ => none
          | _ => none
        else none
    else if c.toNat < 32 then none
    else parseStringBody (c :: acc) rest

/-- Longest digit run at the front of the list. -/
def digitSpan (l : List Char) : List Char × List Char := l.span Char.isDigit

/-- Parse the fraction and exponent parts of a number, given the sign and
integer part already consumed in `pre`. -/
def afterInt (pre : List Char) (l : List Char) : Option (String × List Char) :=
  let fr : Option (List Char × List Char) :=
    match l with
    | c :: rest =>
      if c = '.' then
        match digitSpan rest with
        | ([], _) => none
        | (ds, rest2) => some (pre ++ '.' :: ds, rest2)
      else some (pre, l)
    | [] => some (pre, l)
  match fr with
  | none => none
  | some (pre2, l2) =>
    match l2 with
    | c :: rest =>
      if c = 'e' ∨ c = 'E' then
        let sg : List Char × List Char :=
          match rest with
          | d :: r2 => if d = '+' ∨ d = '-' then ([d], r2) else ([], rest)
          | [] => ([], rest)
        match digitSpan sg.2 with
        | ([], _) => none
        | (ds, r4) => some (String.mk (pre2 ++ c :: (sg.1 ++ ds)), r4)
      else some (String.mk pre2, c :: rest)
    | [] => some (String.mk pre2, [])

/-- Parse a JSON number lexeme (strict JSON grammar: no leading zeros,
fraction and exponent must carry digits). -/
def parseNumberLexeme (l : List Char) : Option (String × List Char) :=
  let sn : List Char × List Char :=
    match l with
    | c :: rest => if c = '-' then ([c], rest) else ([], l)
    | [] => ([], l)
  match sn.2 with
  | [] => none
  | c :: rest =>
    if c = '0' then afterInt (sn.1 ++ [c]) rest
    else if c.isDigit then
      match digitSpan rest with
      | (ds, rest2) => afterInt (sn.1 ++ c :: ds) rest2
    else none

mutual

/-- Fuel-bounded recursive-descent parser for one JSON value, the model
of `JSON.parse`.  Returns the value and the unconsumed remainder. -/
def parseVal : Nat → List Char → Option (Json × List Char)
  | 0, _ => none
  | Nat.succ fuel, l =>
    match skipWs l with
    | [] => none
    | c :: rest =>
      if c = 'n' then (expectChars ['u', 'l', 'l'] rest).map (fun r => (Json.null, r))
      else if c = 't' then (expectChars ['r', 'u', 'e'] rest).map (fun r => (Json.bool true, r))
      else if c = 'f' then (expectChars ['a', 'l', 's', 'e'] rest).map (fun r => (Json.bool false, r))
      else if c = quoteCh then (parseStringBody [] rest).map (fun p => (Json.str p.1, p.2))
      else if c = '[' then
        match skipWs rest with
        | [] => none
        | d :: rest2 =>
          if d = ']' then some (Json.arr [], rest2)
          else (parseElems fuel (d :: rest2)).map (fun p => (Json.arr p.1, p.2))
      else if c = lbraceCh then
        match skipWs rest with
        | [] => none
        | d :: rest2 =>
          if d = rbraceCh then some (Json.obj [], rest2)
          else (parseFields fuel (d :: rest2)).map (fun p => (Json.obj p.1, p.2))
      else (parseNumberLexeme (c :: rest)).map (fun p => (Json.num p.1, p.2))

/-- Parse one or more comma-separated array elements and the closing
bracket. -/
def parseElems : Nat → List Char → Option (List Json × List Char)
  | 0, _ => none
  | Nat.succ fuel, l =>
    match parseVal fuel l with
    | none => none
    | some (j, r) =>
      match skipWs r with
      | [] => none
      | c :: r2 =>
        if c = ',' then (parseElems fuel r2).map (fun p => (j :: p.1, p.2))
        else if c = ']' then some ([j], r2)
        else none

/-- Parse one or more comma-separated object members and the closing
brace. -/
def parseFields : Nat → List Char → Option (List (String × Json) × List Char)
  | 0, _ => none
  | Nat.succ fuel, l =>
    match skipWs l with
    | [] => none
    | c :: r =>
      if c = quoteCh then
        match parseStringBody [] r with
        | none => none
        | some (k, r2) =>
          match skipWs r2 with
          | [] => none
          | d :: r3 =>
            if d = ':' then
              match parseVal fuel r3 with
              | none => none
              | some (v, r4) =>
                match skipWs r4 with
                | [] => none
                | e :: r5 =>
                  if e = ',' then (parseFields fuel r5).map (fun p => ((k, v) :: p.1, p.2))
                  else if e = rbraceCh then some ([(k, v)], r5)
                  else none
            else none
      else none

end

/-- Model of `JSON.parse`: parse one value and require only whitespace to
remain.  `none` models the thrown `SyntaxError`. -/
def jsonParse (s : String) : Option Json :=
  let l := s.toList
  match parseVal (2 * l.length + 2) l with
  | some (j, r) => if (skipWs r).isEmpty then some j else none
  | none => none

mutual

/-- Model of JavaScript `toString` on a parsed JSON value, as applied by
`mapUsageLimit404` to the extracted error code.  Numbers render as their
lexeme; arrays join their elements with commas; objects render as
`[object Object]`. -/
def jsToString : Json → String
  | Json.null => "null"
  | Json.bool true => "true"
  | Json.bool false => "false"
  | Json.num lit => lit
  | Json.str s => s
  | Json.arr xs => jsListToString xs
  | Json.obj _ => "[object Object]"

/-- Comma-joined rendering of a JSON array, as JavaScript `toString`. -/
def jsListToString : List Json → String
  | [] => ""
  | [x] => jsToString x
  | x :: y :: rest => jsToString x ++ "," ++ jsListToString (y :: rest)

end

/-- Model of JavaScript optional chaining `value?.[key]`: field lookup
that yields nothing on non-objects. -/
def jsField (j : Json) (k : String) : Option Json :=
  match j with
  | Json.obj fields => fields.lookup k
  | _ => none

/-- Model of `(parsed?.error?.code ?? parsed?.error?.type ?? "").toString()`
from `mapUsageLimit404`: the error code, falling back to the error type,
with `null` and absence both coalescing. -/
def errorCode (j : Json) : String :=
  match jsField j "error" with
  | none => ""
  | some e =>
    match jsField e "code" with
    | some Json.null =>
      (match jsField e "type" with
       | some Json.null => ""
       | some v => jsToString v
       | none => "")
    | some v => jsToString v
    | none =>
      match jsField e "type" with
      | some Json.null => ""
      | some v => jsToString v
      | none => ""

/-- Whether `pat` occurs as a contiguous run inside `l`. -/
def listContains (pat : List Char) : List Char → Bool
  | [] => pat.isEmpty
  | c :: rest => pat.isPrefixOf (c :: rest) || listContains pat rest

/-- Whether `pat` occurs as a substring of `hay`. -/
def strContains (hay pat : String) : Bool := listContains pat.toList hay.toList

/-- Model of JavaScript `toLowerCase` (character-wise lower-casing),
written over the character list so that it evaluates by reduction. -/
def strLower (s : String) : String := String.mk (s.toList.map Char.toLower)

/-- The alternatives of the usage-limit regular expression in
`mapUsageLimit404`:
`/usage_limit_reached|usage_not_included|rate_limit_exceeded|usage limit/i`. -/
def usagePatterns : List String :=
  ["usage_limit_reached", "usage_not_included", "rate_limit_exceeded", "usage limit"]

/-- Model of testing the usage-limit regular expression against the
(lower-cased) haystack. -/
def matchesUsageLimit (hay : String) : Bool :=
  usagePatterns.any (fun p => strContains hay p)

/-- Modelled from the spec: the status constants `HTTP_STATUS.NOT_FOUND`
and `HTTP_STATUS.TOO_MANY_REQUESTS` live in `lib/constants.ts`, which is
not among the sources; per the spec they are the standard "not found"
and "too many requests" HTTP statuses. -/
def HTTP_STATUS_NOT_FOUND : Nat := 404

/-- Modelled from the spec: the "too many requests" status constant, see
`HTTP_STATUS_NOT_FOUND`. -/
def HTTP_STATUS_TOO_MANY_REQUESTS : Nat := 429

/-- An HTTP response.  `body` is the byte stream modelled as the string
it would yield (`none` models a null body); `textReadFails` records
whether reading the body text would reject, so that the `try/catch`
around `clone.text()` can be modelled faithfully. -/
structure Response where
  status : Nat
  statusText : String
  headers : List (String × String)
  body : Option String
  textReadFails : Bool
deriving DecidableEq, Repr

/-- Model of the guarded body read in `mapUsageLimit404`:
`try { text = await clone.text() } catch { text = "" }`, where a null
body reads as the empty string.  The read happens on a clone, so the
original stream stays consumable; the model is pure, so this needs no
separate bookkeeping. -/
def responseText (r : Response) : String :=
  if r.textReadFails then "" else r.body.getD ""

/-- The error code extracted from a body text, empty when the body does
not parse as JSON (the caught `JSON.parse` failure). -/
def codeOfText (text : String) : String :=
  match jsonParse text with
  | some j => errorCode j
  | none => ""

/-- The lower-cased haystack `` `${code} ${text}`.toLowerCase() `` that
`mapUsageLimit404` tests the usage-limit pattern against. -/
def usageHaystack (text : String) : String :=
  strLower (codeOfText text ++ " " ++ text)

/-- Embedding of `mapUsageLimit404` from `lib/request/fetch-helpers.ts`:
on a "not found" response whose body text (code and raw text combined)
matches the usage-limit pattern, build a "too many requests" response
carrying the original body stream and a copy of the original headers;
otherwise yield nothing. -/
def mapUsageLimit404 (r : Response) : Option Response :=
  if r.status ≠ HTTP_STATUS_NOT_FOUND then none
  else
    let text := responseText r
    if text = "" then none
    else
      if matchesUsageLimit (usageHaystack text) then
        some { status := HTTP_STATUS_TOO_MANY_REQUESTS,
               statusText := "Too Many Requests",
               headers := r.headers,
               body := r.body,
               textReadFails := r.textReadFails }
      else none

/-- Embedding of `handleErrorResponse`: the mapped response when the
usage-limit remap applies, the original response otherwise (the logging
call has no effect on the value). -/
def handleErrorResponse (r : Response) : Response :=
  (mapUsageLimit404 r).getD r

/-- Replace the first occurrence of `pat` in the list, as JavaScript
`String.prototype.replace` with a string pattern. -/
def replFirstAux (pat rep : List Char) : List Char → List Char
  | [] => []
  | c :: rest =>
    if pat.isPrefixOf (c :: rest) then rep ++ (c :: rest).drop pat.length
    else c :: replFirstAux pat rep rest

/-- Model of `url.replace(pat, rep)` for a string pattern: replace the
first occurrence only. -/
def replaceFirst (s pat rep : String) : String :=
  String.mk (replFirstAux pat.toList rep.toList s.toList)

/-- Modelled from the spec: the path constants `URL_PATHS.RESPONSES` and
`URL_PATHS.CODEX_RESPONSES` live in `lib/constants.ts`, which is not
among the sources; per the spec they are the standard "/responses"
endpoint suffix and the backend-specific "/codex/responses" suffix. -/
def URL_PATHS_RESPONSES : String := "/responses"

/-- Modelled from the spec: the backend-specific path suffix, see
`URL_PATHS_RESPONSES`. -/
def URL_PATHS_CODEX_RESPONSES : String := "/codex/responses"

/-- Modelled from the spec: the constant `CODEX_BASE_URL` lives in
`lib/constants.ts`, which is not among the sources; per the spec and the
README it is the fixed, non-empty default backend base URL. -/
def CODEX_BASE_URL : String := "https://chatgpt.com/backend-api"

/-- JavaScript truthiness of an optional string: `undefined` and the
empty string are falsy. -/
def jsTruthy : Option String → Bool
  | none => false
  | some s => !(s == "")

/-- Embedding of `rewriteUrlForCodex` from `lib/request/fetch-helpers.ts`:
with a truthy custom base URL the URL is used as-is; otherwise the first
occurrence of the "/responses" suffix is replaced by "/codex/responses". -/
def rewriteUrlForCodex (url : String) (customBaseURL : Option String) : String :=
  if jsTruthy customBaseURL then url
  else replaceFirst url URL_PATHS_RESPONSES URL_PATHS_CODEX_RESPONSES

/-- JavaScript `a || b` on an optional string and a fallback:
the fallback is used when `a` is `undefined` or empty. -/
def jsOrElse (a : Option String) (b : String) : String :=
  match a with
  | some s => if s = "" then b else s
  | none => b

/-- Embedding of the base-URL resolution in the loader (`src/index.ts`):
`pluginConfig.baseURL || providerConfig?.baseURL || CODEX_BASE_URL`. -/
def resolveCustomBaseURL (pluginBaseURL providerBaseURL : Option String) : String :=
  jsOrElse pluginBaseURL (jsOrElse providerBaseURL CODEX_BASE_URL)

/-- Case-insensitive equality of header names, the lookup discipline of
the `Headers` class. -/
def keyEq (a b : String) : Bool := strLower a == strLower b

/-- Case-insensitive header lookup, the first matching entry. -/
def hlookup : List (String × String) → String → Option String
  | [], _ => none
  | p :: rest, k => if keyEq p.1 k then some p.2 else hlookup rest k

/-- Drop every entry with the given name, case-insensitively. -/
def hremove : List (String × String) → String → List (String × String)
  | [], _ => []
  | p :: rest, k => if keyEq p.1 k then hremove rest k else p :: hremove rest k

/-- Model of `Headers.set`: drop every entry with the given name
(case-insensitively) and append the new entry. -/
def hset (hs : List (String × String)) (k v : String) : List (String × String) :=
  hremove hs k ++ [(k, v)]

/-- Modelled from the spec: `ensureContentType` lives in
`lib/request/response-handler.ts`, which is not among the sources; per
the spec it is a content-type header normalization pass that ensures the
declared content-type matches event-stream semantics when the backend
under- or mis-reports it, leaving every other header unchanged. -/
def ensureContentType (hs : List (String × String)) : List (String × String) :=
  match hlookup hs "Content-Type" with
  | some v => if strContains (strLower v) "text/event-stream" then hs
              else hset hs "Content-Type" "text/event-stream"
  | none => hset hs "Content-Type" "text/event-stream"

/-- One decoded Server-Sent event of the backend stream: an incremental
text delta carrying its output index, a terminal completion event, or an
event of some other recognized-but-ignored type. -/
inductive SseEvent where
  | textDelta : Nat → String → SseEvent
  | completed : SseEvent
  | other : SseEvent
deriving DecidableEq, Repr

/-- A digit run read as a natural number. -/
def natFromDigits (l : List Char) : Option Nat :=
  if l ≠ [] ∧ l.all Char.isDigit then
    some (l.foldl (fun acc c => acc * 10 + (c.toNat - 48)) 0)
  else none

/-- Numeric JSON field read as a natural index. -/
def natOfJson : Json → Option Nat
  | Json.num lit => natFromDigits lit.toList
  | _ => none

/-- Modelled from the spec: decoding of one SSE `data:` payload inside
`convertSseToJson` (`lib/request/response-handler.ts`, not among the
sources).  A payload that is not valid JSON is a malformed event and is
skipped (`none`); a text-delta event carries its fragment and output
index; a completion event ends the logical response; any other event
type is ignored. -/
def decodePayload (s : String) : Option SseEvent :=
  match jsonParse s with
  | none => none
  | some j =>
    match jsField j "type" with
    | some (Json.str t) =>
      if t = "response.output_text.delta" then
        match jsField j "delta", (jsField j "output_index").bind natOfJson with
        | some (Json.str d), some i => some (SseEvent.textDelta i d)
        | some (Json.str d), none => some (SseEvent.textDelta 0 d)
        | _, _ => some SseEvent.other
      else if t = "response.completed" then some SseEvent.completed
      else some SseEvent.other
    | _ => some SseEvent.other

/-- Append a text fragment to the accumulator entry of its index,
creating the entry at the end on first sight of the index. -/
def appendAt : List (Nat × String) → Nat → String → List (Nat × String)
  | [], i, s => [(i, s)]
  | (j, t) :: rest, i, s =>
    if j = i then (j, t ++ s) :: rest else (j, t) :: appendAt rest i s

/-- Fold one decoded event into the accumulator: deltas accumulate by
output index, everything else leaves the accumulator unchanged. -/
def applyEvent (acc : List (Nat × String)) (e : SseEvent) : List (Nat × String) :=
  match e with
  | SseEvent.textDelta i s => appendAt acc i s
  | _ => acc

/-- Aggregate a decoded event sequence into the per-index accumulator. -/
def aggregateEvents (evs : List SseEvent) : List (Nat × String) :=
  evs.foldl applyEvent []

/-- The full text of the accumulator, fragments concatenated in
accumulation order. -/
def joinedText (acc : List (Nat × String)) : String :=
  acc.foldl (fun a p => a ++ p.2) ""

/-- Aggregated text of a list of raw `data:` payload strings: malformed
payloads are skipped, the rest are decoded and folded. -/
def aggregateText (payloads : List String) : String :=
  joinedText (aggregateEvents (payloads.filterMap decodePayload))

/-- Split a character list at newline characters. -/
def splitLines : List Char → List (List Char)
  | [] => [[]]
  | c :: rest =>
    if c = '\n' then [] :: splitLines rest
    else
      match splitLines rest with
      | [] => [[c]]
      | g :: gs => (c :: g) :: gs

/-- Group a line list into its blank-line-separated blocks. -/
def groupBlocks : List (List Char) → List (List (List Char))
  | [] => [[]]
  | ln :: rest =>
    if ln.isEmpty then [] :: groupBlocks rest
    else
      match groupBlocks rest with
      | [] => [[ln]]
      | b :: bs => (ln :: b) :: bs

/-- The `data:` payload of one SSE block, when the block carries one. -/
def dataOfLines (lines : List (List Char)) : Option (List Char) :=
  lines.findSome?
    (fun ln => if "data: ".toList.isPrefixOf ln then some (ln.drop 6) else none)

/-- Modelled from the spec: the SSE framing consumed by
`convertSseToJson` — events are blank-line-separated blocks, each
carrying one `data:` JSON payload. -/
def sseDataPayloads (s : String) : List String :=
  ((groupBlocks (splitLines s.toList)).filterMap dataOfLines).map String.mk

/-- One hexadecimal digit character. -/
def hexDigit (n : Nat) : Char :=
  if n < 10 then Char.ofNat (48 + n) else Char.ofNat (87 + (n - 10))

/-- JSON string escaping for the synthesized document. -/
def escChar (c : Char) : String :=
  if c = quoteCh then String.mk [backslashCh, quoteCh]
  else if c = backslashCh then String.mk [backslashCh, backslashCh]
  else if c = '\n' then String.mk [backslashCh, 'n']
  else if c = Char.ofNat 13 then String.mk [backslashCh, 'r']
  else if c = '\t' then String.mk [backslashCh, 't']
  else if c.toNat < 32 then
    String.mk [backslashCh, 'u', '0', '0', hexDigit (c.toNat / 16), hexDigit (c.toNat % 16)]
  else String.mk [c]

/-- JSON string escaping, character by character. -/
def jsonEscape (s : String) : String := String.join (s.toList.map escChar)

/-- The single synthesized JSON document carrying the aggregated text. -/
def mkJsonDoc (t : String) : String :=
  "\x7b\"output_text\":\"" ++ jsonEscape t ++ "\"\x7d"

/-- Modelled from the spec: `convertSseToJson` lives in
`lib/request/response-handler.ts`, which is not among the sources; per
the spec it fully consumes the Server-Sent-Event body, decodes each
event, accumulates the incremental fragments keyed by index, and emits
exactly one synthesized JSON document with a JSON content type. -/
def convertSseToJson (r : Response) (hs : List (String × String)) : Response :=
  { status := r.status,
    statusText := r.statusText,
    headers := hset hs "Content-Type" "application/json",
    body := some (mkJsonDoc (aggregateText (sseDataPayloads (r.body.getD "")))),
    textReadFails := false }

/-- Embedding of `handleSuccessResponse`: normalize the content type,
then either convert the SSE body to one JSON document (non-streaming) or
pass the original byte stream through with the original status and
status text (streaming). -/
def handleSuccessResponse (r : Response) (isStreaming : Bool) : Response :=
  let responseHeaders := ensureContentType r.headers
  if !isStreaming then convertSseToJson r responseHeaders
  else
    { status := r.status,
      statusText := r.statusText,
      headers := responseHeaders,
      body := r.body,
      textReadFails := r.textReadFails }

/-- The request options handed to the composed fetch hook: headers and
an optional string body. -/
structure RequestInit where
  headers : List (String × String)
  body : Option String
deriving DecidableEq, Repr

/-- The result of `transformRequestForCodex` as consumed by the hook:
the updated request options (the transformed body serialized back). -/
structure TransformResult where
  updatedInit : RequestInit
deriving DecidableEq, Repr

/-- The outbound HTTP request the hook dispatches to the backend. -/
structure OutboundRequest where
  url : String
  headers : List (String × String)
  body : Option String
deriving DecidableEq, Repr

/-- The failure mode of the composed fetch hook before dispatch. -/
inductive FetchError where
  | inboundJsonParse : FetchError
deriving DecidableEq, Repr

/-- Streaming flag read from a parsed body:
`originalBody.stream === true`. -/
def streamFlag (j : Json) : Bool :=
  match jsField j "stream" with
  | some (Json.bool true) => true
  | _ => false

/-- Embedding of the isStreaming-capture step of the composed fetch hook
(`src/index.ts`):
`const originalBody = init?.body ? JSON.parse(init.body as string) : {}`.
The `JSON.parse` call sits outside every `try`, so a body that fails to
parse rejects the whole hook; this is modelled by `Except.error`. -/
def prepareDispatch (init : Option RequestInit) : Except FetchError Bool :=
  match init with
  | none => Except.ok false
  | some ri =>
    match ri.body with
    | none => Except.ok false
    | some b =>
      if b = "" then Except.ok false
      else
        match jsonParse b with
        | none => Except.error FetchError.inboundJsonParse
        | some j => Except.ok (streamFlag j)

/-- Modelled from the spec: the header-name constants
`OPENAI_HEADERS.AUTHORIZATION` and `OPENAI_HEADERS.CONTENT_TYPE` live in
`lib/constants.ts`, which is not among the sources; per the spec they
are the standard `Authorization` and `Content-Type` header names. -/
def OPENAI_HEADERS_AUTHORIZATION : String := "Authorization"

/-- Modelled from the spec: the content-type header name, see
`OPENAI_HEADERS_AUTHORIZATION`. -/
def OPENAI_HEADERS_CONTENT_TYPE : String := "Content-Type"

/-- Embedding of steps 3 and 4 of the composed fetch hook
(`src/index.ts`): take the transformed init when transformation
succeeded (`transformation?.updatedInit ?? init`), copy its headers, set
the authorization and content-type headers, and dispatch the init body
to the rewritten URL. -/
def outboundRequest (init : Option RequestInit) (transformation : Option TransformResult)
    (url apiKey : String) : OutboundRequest :=
  let requestInit : Option RequestInit :=
    match transformation with
    | some t => some t.updatedInit
    | none => init
  let hs : List (String × String) :=
    match requestInit with
    | some ri => ri.headers
    | none => []
  { url := url,
    headers := hset (hset hs OPENAI_HEADERS_AUTHORIZATION ("Bearer " ++ apiKey))
      OPENAI_HEADERS_CONTENT_TYPE "application/json",
    body := requestInit.bind (fun ri => ri.body) }

/-- The shared state of the instruction cache: memoized successes, the
keys with an in-flight fetch together with their waiting caller count,
and the number of underlying fetches started. -/
structure CacheState where
  cache : List (String × String)
  pending : List (String × Nat)
  fetchCount : Nat
deriving DecidableEq, Repr

/-- The cache before any request. -/
def emptyCache : CacheState := { cache := [], pending := [], fetchCount := 0 }

/-- Replace the waiter count of a pending key. -/
def setPending (l : List (String × Nat)) (k : String) (n : Nat) : List (String × Nat) :=
  l.map (fun p => if p.1 = k then (k, n) else p)

/-- Modelled from the spec: one caller arriving at
`getInstructions`/`getCodexInstructions` (`lib/prompts/codex.ts`, not
among the sources).  A memoized key resolves immediately; a key with an
in-flight fetch gains one more waiter and starts no fetch; otherwise the
single fetch for the key is started.  The returned option is the
immediate resolution, when there is one. -/
def cacheCall (s : CacheState) (k : String) :
    CacheState × Option (Except String String) :=
  match s.cache.lookup k with
  | some v => (s, some (Except.ok v))
  | none =>
    match s.pending.lookup k with
    | some n => ({ s with pending := setPending s.pending k (n + 1) }, none)
    | none =>
      ({ s with pending := (k, 1) :: s.pending, fetchCount := s.fetchCount + 1 }, none)

/-- Modelled from the spec: completion of the in-flight fetch for a key.
Every waiter receives the same result; a success is memoized, a failure
records no cache entry so a later call retries. -/
def cacheComplete (s : CacheState) (k : String) (res : Except String String) :
    CacheState × List (Except String String) :=
  match s.pending.lookup k with
  | some n =>
    ({ cache := match res with
        | Except.ok v => (k, v) :: s.cache
        | Except.error _ => s.cache,
       pending := s.pending.filter (fun p => !(p.1 = k : Bool)),
       fetchCount := s.fetchCount },
     List.replicate n res)
  | none => (s, [])

/-- Repeated arrival of `n` callers for the same key before the fetch completes. -/
def cacheCallN (k : String) : Nat → CacheState
  | 0 => emptyCache
  | Nat.succ n => (cacheCall (cacheCallN k n) k).1

/-- Whether `pat` occurs nowhere in `p ++ pat` starting strictly
before the final copy of `pat`: the appended `pat` is the first
occurrence that `replaceFirst` finds. -/
def cleanBefore (pat : List Char) : List Char → Bool
  | [] => true
  | c :: rest => (!(pat.isPrefixOf (c :: (rest ++ pat)))) && cleanBefore pat rest

/-- The usage-limit error body of the exact remap case in the spec. -/
def usageLimitBody : String := "\x7b\"error\":\x7b\"code\":\"usage_limit_reached\"\x7d\x7d"

/-- The model-not-found error body of the exact passthrough case in the spec. -/
def modelNotFoundBody : String := "\x7b\"error\":\x7b\"code\":\"model_not_found\"\x7d\x7d"

/-- A three-delta-then-completion SSE body used as a concrete instance. -/
def sampleSseBody : String :=
  "data: \x7b\"type\":\"response.output_text.delta\",\"output_index\":0,\"delta\":\"Hel\"\x7d\n\ndata: \x7b\"type\":\"response.output_text.delta\",\"output_index\":0,\"delta\":\"lo\"\x7d\n\ndata: \x7b\"type\":\"response.completed\"\x7d\n"

/-!  Helper lemmas. -/

theorem isPrefixOf_self (l : List Char) : l.isPrefixOf l = true := by
  rw [ List.isPrefixOf_iff_prefix]

theorem strToList_append (s t : String) : (s ++ t).toList = s.toList ++ t.toList := rfl

theorem strMk_toList (s : String) : String.mk s.toList = s := rfl

theorem replFirstAux_suffix (pat rep : List Char) (hpat : pat ≠ []) :
    ∀ p : List Char, cleanBefore pat p = true →
      replFirstAux pat rep (p ++ pat) = p ++ rep := by
  intro p
  induction p with
  | nil =>
    intro _
    rw [List.nil_append, List.nil_append]
    cases pat with
    | nil => exact absurd rfl hpat
    | cons c cs =>
      unfold replFirstAux
      rw [if_pos (isPrefixOf_self (c :: cs))]
      simp
  | cons c rest ih =>
    intro hc
    rw [cleanBefore, Bool.and_eq_true] at hc
    have hnp : pat.isPrefixOf (c :: (rest ++ pat)) = false := by
      cases h : pat.isPrefixOf (c :: (rest ++ pat))
      · rfl
      · rw [h] at hc; simp at hc
    rw [List.cons_append]
    unfold replFirstAux
    rw [if_neg (by rw [hnp]; simp)]
    rw [ih hc.2]
    rfl

theorem keyEq_iff (a b : String) : keyEq a b = true ↔ strLower a = strLower b := by
  unfold keyEq
  exact beq_iff_eq

theorem keyEq_false (a b : String) (h : strLower a ≠ strLower b) : keyEq a b = false := by
  cases hb : keyEq a b
  · rfl
  · exact absurd ((keyEq_iff a b).mp hb) h

theorem hlookup_hset (hs : List (String × String)) (k v kq : String) :
    hlookup (hset hs k v) kq = if keyEq kq k then some v else hlookup hs kq := by
  unfold hset
  induction hs with
  | nil =>
    show hlookup [(k, v)] kq = _
    unfold hlookup
    by_cases h : strLower kq = strLower k
    · rw [if_pos ((keyEq_iff k kq).mpr h.symm), if_pos (by rw [(keyEq_iff kq k).mpr h])]
    · rw [if_neg (by rw [keyEq_false k kq fun e => h e.symm]; simp),
        if_neg (by rw [keyEq_false kq k h]; simp)]
      rfl
  | cons hd tl ih =>
    show hlookup (hremove (hd :: tl) k ++ [(k, v)]) kq = _
    unfold hremove
    by_cases hhk : strLower hd.1 = strLower k
    · rw [if_pos (by rw [(keyEq_iff hd.1 k).mpr hhk])]
      rw [ih]
      by_cases hqk : strLower kq = strLower k
      · rw [if_pos (by rw [(keyEq_iff kq k).mpr hqk]),
          if_pos (by rw [(keyEq_iff kq k).mpr hqk])]
      · have hhq : keyEq hd.1 kq = false :=
          keyEq_false hd.1 kq (by rw [hhk]; exact fun e => hqk e.symm)
        rw [if_neg (by rw [keyEq_false kq k hqk]; simp),
          if_neg (by rw [keyEq_false kq k hqk]; simp)]
        show _ = hlookup (hd :: tl) kq
        unfold hlookup
        rw [if_neg (by rw [hhq]; simp)]
        cases tl <;> rfl
    · rw [if_neg (by rw [keyEq_false hd.1 k hhk]; simp)]
      rw [List.cons_append]
      by_cases hhq : strLower hd.1 = strLower kq
      · have hqk : keyEq kq k = false :=
          keyEq_false kq k (by rw [← hhq]; exact fun e => hhk e)
        show hlookup (hd :: (hremove tl k ++ [(k, v)])) kq = _
        unfold hlookup
        rw [if_pos (by rw [(keyEq_iff hd.1 kq).mpr hhq]),
          if_neg (by rw [hqk]; simp)]
        show _ = hlookup (hd :: tl) kq
        unfold hlookup
        rw [if_pos (by rw [(keyEq_iff hd.1 kq).mpr hhq])]
      · have hf : keyEq hd.1 kq = false := keyEq_false hd.1 kq hhq
        show hlookup (hd :: (hremove tl k ++ [(k, v)])) kq = _
        unfold hlookup
        rw [if_neg (by rw [hf]; simp)]
        rw [ih]
        by_cases hqk : strLower kq = strLower k
        · rw [if_pos (by rw [(keyEq_iff kq k).mpr hqk]),
            if_pos (by rw [(keyEq_iff kq k).mpr hqk])]
        · rw [if_neg (by rw [keyEq_false kq k hqk]; simp),
            if_neg (by rw [keyEq_false kq k hqk]; simp)]
          show _ = hlookup (hd :: tl) kq
          unfold hlookup
          rw [if_neg (by rw [hf]; simp)]
          cases tl <;> rfl

theorem jsOrElse_ne (a : Option String) (b : String) (hb : b ≠ "") :
    jsOrElse a b ≠ "" := by
  cases a with
  | none => exact hb
  | some s =>
    by_cases hs : s = ""
    · simp [jsOrElse, hs]; exact hb
    · simp [jsOrElse, hs]

/-!  Claim theorems. -/

/-- C1: a "not found" response whose body text (error code/type or raw
text) matches the case-insensitive usage-limit pattern is remapped by
`handleErrorResponse` to a "too many requests" response with replaced
status text, the original body stream and the original headers; a
"not found" response whose body does not match the pattern is returned
unchanged.  The exact cases of the spec: a
`usage_limit_reached` body is remapped with the body preserved, a
`model_not_found` body passes through with its original status. -/
theorem errorRemap_usageLimit404 (r : Response)
    (h404 : r.status = HTTP_STATUS_NOT_FOUND) :
    (responseText r ≠ "" → matchesUsageLimit (usageHaystack (responseText r)) = true →
      handleErrorResponse r =
        { status := HTTP_STATUS_TOO_MANY_REQUESTS, statusText := "Too Many Requests",
          headers := r.headers, body := r.body, textReadFails := r.textReadFails })
    ∧ (matchesUsageLimit (usageHaystack (responseText r)) = false →
        handleErrorResponse r = r)
    ∧ handleErrorResponse
        { status := 404, statusText := "Not Found", headers := [("X-Request-Id", "1")],
          body := some usageLimitBody, textReadFails := false } =
        { status := 429, statusText := "Too Many Requests", headers := [("X-Request-Id", "1")],
          body := some usageLimitBody, textReadFails := false }
    ∧ handleErrorResponse
        { status := 404, statusText := "Not Found", headers := [],
          body := some modelNotFoundBody, textReadFails := false } =
        { status := 404, statusText := "Not Found", headers := [],
          body := some modelNotFoundBody, textReadFails := false } := by
  refine ⟨?_, ?_, by decide, by decide⟩
  · intro ht hm
    simp [handleErrorResponse, mapUsageLimit404, h404, ht, hm]
  · intro hm
    simp [handleErrorResponse, mapUsageLimit404, h404, hm]

/-- Witness for C1 at a concrete matching response. -/
theorem errorRemap_usageLimit404_witness :
    handleErrorResponse
      { status := 404, statusText := "Not Found", headers := [("Date", "today")],
        body := some usageLimitBody, textReadFails := false } =
      { status := 429, statusText := "Too Many Requests", headers := [("Date", "today")],
        body := some usageLimitBody, textReadFails := false } :=
  (errorRemap_usageLimit404 _ rfl).1 (by decide) (by decide)

/-- C2: `handleErrorResponse` returns every response whose status is not
"not found" unchanged — same status, headers and body stream. -/
theorem errorRemap_non404_passthrough (r : Response)
    (h : r.status ≠ HTTP_STATUS_NOT_FOUND) :
    handleErrorResponse r = r := by
  simp [handleErrorResponse, mapUsageLimit404, h]

/-- Witness for C2: a 500 response — even with a usage-limit body — is
passed through unchanged. -/
theorem errorRemap_non404_witness :
    handleErrorResponse
      { status := 500, statusText := "Internal Server Error",
        headers := [("Retry-After", "1")], body := some "usage_limit_reached",
        textReadFails := false } =
      { status := 500, statusText := "Internal Server Error",
        headers := [("Retry-After", "1")], body := some "usage_limit_reached",
        textReadFails := false } :=
  errorRemap_non404_passthrough _ (by decide)

/-- C10 counterexample: a "not found" response whose body is not valid
JSON is not always returned unchanged — the raw text is still
pattern-checked, so the non-JSON body `usage limit` is remapped to
"too many requests". -/
theorem errorRemap_nonJson_counterexample :
    (jsonParse "usage limit").isNone = true
    ∧ handleErrorResponse
        { status := 404, statusText := "Not Found", headers := [],
          body := some "usage limit", textReadFails := false } ≠
      { status := 404, statusText := "Not Found", headers := [],
        body := some "usage limit", textReadFails := false }
    ∧ (handleErrorResponse
        { status := 404, statusText := "Not Found", headers := [],
          body := some "usage limit", textReadFails := false }).status =
      HTTP_STATUS_TOO_MANY_REQUESTS := by
  decide

/-- C10 amended: `handleErrorResponse` is total; a "not found" response
whose body text is empty or whose body read fails is returned unchanged,
and one whose body is not valid JSON is returned unchanged provided its
raw text does not match the usage-limit pattern (the parse failure only
clears the error code — the raw text is still pattern-checked). -/
theorem errorRemap_total_amended (r : Response)
    (h404 : r.status = HTTP_STATUS_NOT_FOUND) :
    (r.textReadFails = true → handleErrorResponse r = r)
    ∧ ((r.body = none ∨ r.body = some "") → handleErrorResponse r = r)
    ∧ ((jsonParse (responseText r)).isNone = true →
        matchesUsageLimit (usageHaystack (responseText r)) = false →
        handleErrorResponse r = r) := by
  refine ⟨?_, ?_, ?_⟩
  · intro hf
    simp [handleErrorResponse, mapUsageLimit404, responseText, h404, hf]
  · intro hb
    rcases hb with hb | hb <;>
      simp [handleErrorResponse, mapUsageLimit404, responseText, h404, hb]
  · intro _ hm
    simp [handleErrorResponse, mapUsageLimit404, h404, hm]

/-- Witness for the amended C10 at a concrete non-JSON, non-matching
body. -/
theorem errorRemap_total_amended_witness :
    handleErrorResponse
      { status := 404, statusText := "Not Found", headers := [],
        body := some "\x7bnot-json", textReadFails := false } =
      { status := 404, statusText := "Not Found", headers := [],
        body := some "\x7bnot-json", textReadFails := false } :=
  (errorRemap_total_amended _ rfl).2.2 (by decide) (by decide)

/-- C4: with the custom base URL absent (falsy), `rewriteUrlForCodex`
replaces the "/responses" suffix of the URL by "/codex/responses",
leaving everything before it untouched (the hypothesis states that the
suffix is the first occurrence of "/responses" in the URL); with a
custom base URL present (non-empty), the URL is returned completely
unmodified.  The two example cases of the spec are included verbatim. -/
theorem rewriteUrl_contract (p u s : String) :
    (cleanBefore URL_PATHS_RESPONSES.toList p.toList = true →
      rewriteUrlForCodex (p ++ URL_PATHS_RESPONSES) none = p ++ URL_PATHS_CODEX_RESPONSES)
    ∧ (s ≠ "" → rewriteUrlForCodex u (some s) = u)
    ∧ rewriteUrlForCodex "https://api.example.com/v1/responses" none =
        "https://api.example.com/v1/codex/responses"
    ∧ rewriteUrlForCodex "https://api.example.com/v1/chat" (some "https://custom.example.com") =
        "https://api.example.com/v1/chat" := by
  refine ⟨?_, ?_, by decide, by decide⟩
  · intro hc
    show replaceFirst (p ++ URL_PATHS_RESPONSES) URL_PATHS_RESPONSES URL_PATHS_CODEX_RESPONSES
        = p ++ URL_PATHS_CODEX_RESPONSES
    unfold replaceFirst
    rw [strToList_append]
    rw [replFirstAux_suffix URL_PATHS_RESPONSES.toList URL_PATHS_CODEX_RESPONSES.toList
      (by decide) p.toList hc]
    exact String.ext rfl
  · intro hs
    simp [rewriteUrlForCodex, jsTruthy, hs]

/-- Witness for C4: a concrete default-mode rewrite and a concrete
custom-base passthrough. -/
theorem rewriteUrl_contract_witness :
    rewriteUrlForCodex ("https://api.openai.com/v1" ++ URL_PATHS_RESPONSES) none =
      "https://api.openai.com/v1" ++ URL_PATHS_CODEX_RESPONSES
    ∧ rewriteUrlForCodex "https://api.openai.com/v1/responses"
        (some "https://my-api.example.com") = "https://api.openai.com/v1/responses" :=
  ⟨(rewriteUrl_contract "https://api.openai.com/v1" "" "x").1 (by decide),
   (rewriteUrl_contract "" "https://api.openai.com/v1/responses"
      "https://my-api.example.com").2.1 (by decide)⟩

/-- C5: the base URL the loader resolves
(`pluginConfig.baseURL || providerConfig?.baseURL || CODEX_BASE_URL`) is
never empty — it falls back to the constant `CODEX_BASE_URL` — so
`rewriteUrlForCodex` always takes its custom-base branch and the URL
passed to the backend dispatch is unmodified; the default rewrite branch
is unreachable from the orchestrated pipeline. -/
theorem customBaseURL_always_truthy (pb qb : Option String) (url : String) :
    resolveCustomBaseURL pb qb ≠ ""
    ∧ rewriteUrlForCodex url (some (resolveCustomBaseURL pb qb)) = url
    ∧ resolveCustomBaseURL none none = CODEX_BASE_URL := by
  have hne : resolveCustomBaseURL pb qb ≠ "" :=
    jsOrElse_ne pb _ (jsOrElse_ne qb _ (by decide))
  refine ⟨hne, ?_, rfl⟩
  simp [rewriteUrlForCodex, jsTruthy, hne]

/-- C6: for a successful response handled with `isStreaming = true`,
`handleSuccessResponse` keeps the original status, status text and body
stream, and only normalizes the content-type header; every header other
than content-type reads back unchanged. -/
theorem successResponse_streaming_contract (r : Response) (k : String) :
    handleSuccessResponse r true =
      { status := r.status, statusText := r.statusText,
        headers := ensureContentType r.headers, body := r.body,
        textReadFails := r.textReadFails }
    ∧ (keyEq k "Content-Type" = false →
        hlookup (ensureContentType r.headers) k = hlookup r.headers k) := by
  constructor
  · rfl
  · intro hk
    unfold ensureContentType
    cases h : hlookup r.headers "Content-Type" with
    | none =>
      rw [hlookup_hset, if_neg (by rw [hk]; simp)]
    | some v =>
      show hlookup
          (if strContains (strLower v) "text/event-stream" = true then r.headers
           else hset r.headers "Content-Type" "text/event-stream") k =
        hlookup r.headers k
      by_cases hv : strContains (strLower v) "text/event-stream" = true
      · rw [if_pos hv]
      · rw [if_neg hv, hlookup_hset, if_neg (by rw [hk]; simp)]

/-- Witness for C6 at a concrete streaming response. -/
theorem successResponse_streaming_witness :
    handleSuccessResponse
        { status := 200, statusText := "OK", headers := [("X-A", "1")],
          body := some "data: x\n\n", textReadFails := false } true =
      { status := 200, statusText := "OK",
        headers := ensureContentType [("X-A", "1")], body := some "data: x\n\n",
        textReadFails := false }
    ∧ hlookup (ensureContentType [("X-A", "1")]) "X-A" = hlookup [("X-A", "1")] "X-A" :=
  ⟨(successResponse_streaming_contract
      { status := 200, statusText := "OK", headers := [("X-A", "1")],
        body := some "data: x\n\n", textReadFails := false } "X-A").1,
   (successResponse_streaming_contract
      { status := 200, statusText := "OK", headers := [("X-A", "1")],
        body := some "data: x\n\n", textReadFails := false } "X-A").2 (by decide)⟩

/-- C7: the non-streaming translator aggregates the event stream into
one document: three text deltas followed by a completion yield the
concatenation of the deltas in order; a malformed (non-JSON) event
anywhere in the payload list leaves the aggregated result unchanged; and
a concrete three-delta SSE body converts end-to-end into exactly one
synthesized JSON document. -/
theorem sse_aggregation_contract (i : Nat) (a b c bad : String)
    (xs ys : List String) :
    joinedText (aggregateEvents
      [SseEvent.textDelta i a, SseEvent.textDelta i b, SseEvent.textDelta i c,
       SseEvent.completed]) = a ++ b ++ c
    ∧ ((jsonParse bad).isNone = true →
        aggregateText (xs ++ bad :: ys) = aggregateText (xs ++ ys))
    ∧ handleSuccessResponse
        { status := 200, statusText := "OK", headers := [],
          body := some sampleSseBody, textReadFails := false } false =
      { status := 200, statusText := "OK",
        headers := [("Content-Type", "application/json")],
        body := some "\x7b\"output_text\":\"Hello\"\x7d", textReadFails := false } := by
  refine ⟨?_, ?_, by decide⟩
  · simp [aggregateEvents, applyEvent, appendAt, joinedText, String.append_assoc]
  · intro hbad
    have hdec : decodePayload bad = none := by
      unfold decodePayload
      rw [Option.isNone_iff_eq_none.mp hbad]
    unfold aggregateText
    rw [List.filterMap_append, List.filterMap_append, List.filterMap_cons_none hdec]

/-- Witness for C7: dropping a concrete corrupt payload between two
valid ones leaves the aggregate unchanged. -/
theorem sse_aggregation_witness :
    aggregateText
      ["\x7b\"type\":\"response.output_text.delta\",\"delta\":\"A\"\x7d", "corrupt",
       "\x7b\"type\":\"response.completed\"\x7d"] =
    aggregateText
      ["\x7b\"type\":\"response.output_text.delta\",\"delta\":\"A\"\x7d",
       "\x7b\"type\":\"response.completed\"\x7d"] :=
  (sse_aggregation_contract 0 "" "" "" "corrupt"
    ["\x7b\"type\":\"response.output_text.delta\",\"delta\":\"A\"\x7d"]
    ["\x7b\"type\":\"response.completed\"\x7d"]).2.1 (by decide)

/-- The state after `n + 1` callers for the same key arrive at an empty
cache: no memoized entry, all waiting on one in-flight fetch. -/
theorem cacheCallN_succ_eq (k : String) :
    ∀ n : Nat, cacheCallN k (n + 1) =
      { cache := [], pending := [(k, n + 1)], fetchCount := 1 } := by
  intro n
  induction n with
  | zero => rfl
  | succ m ih =>
    show (cacheCall (cacheCallN k (m + 1)) k).1 = _
    rw [ih]
    simp [cacheCall, List.lookup, setPending]

/-- C8: `n` concurrent callers for one family key trigger exactly one
underlying fetch; on completion every caller receives the same resolved
value, or the same propagated failure; a failure records no cache entry,
so the next call starts a second fetch; a success is memoized, so the
next call resolves immediately from the cache without a new fetch. -/
theorem instructionCache_single_flight (k v e : String) (n : Nat) (hn : 0 < n) :
    (cacheCallN k n).fetchCount = 1
    ∧ (cacheComplete (cacheCallN k n) k (Except.ok v)).2 =
        List.replicate n (Except.ok v)
    ∧ (cacheComplete (cacheCallN k n) k (Except.error e)).2 =
        List.replicate n (Except.error e)
    ∧ ((cacheComplete (cacheCallN k n) k (Except.error e)).1).cache.lookup k = none
    ∧ (cacheCall ((cacheComplete (cacheCallN k n) k (Except.error e)).1) k).1.fetchCount = 2
    ∧ (cacheCall ((cacheComplete (cacheCallN k n) k (Except.ok v)).1) k).2 =
        some (Except.ok v)
    ∧ (cacheCall ((cacheComplete (cacheCallN k n) k (Except.ok v)).1) k).1 =
        (cacheComplete (cacheCallN k n) k (Except.ok v)).1 := by
  obtain ⟨m, rfl⟩ : ∃ m, n = m + 1 := ⟨n - 1, (Nat.succ_pred_eq_of_pos hn).symm⟩
  rw [cacheCallN_succ_eq k m]
  refine ⟨rfl, ?_, ?_, ?_, ?_, ?_, ?_⟩ <;>
    simp [cacheComplete, cacheCall, List.lookup, List.filter, List.replicate]

/-- Witness for C8 at three concurrent callers for one concrete key. -/
theorem instructionCache_single_flight_witness :
    (cacheCallN "gpt-5.1-codex" 3).fetchCount = 1
    ∧ (cacheComplete (cacheCallN "gpt-5.1-codex" 3) "gpt-5.1-codex"
        (Except.ok "INSTR")).2 = List.replicate 3 (Except.ok "INSTR")
    ∧ (cacheComplete (cacheCallN "gpt-5.1-codex" 3) "gpt-5.1-codex"
        (Except.error "boom")).2 = List.replicate 3 (Except.error "boom")
    ∧ ((cacheComplete (cacheCallN "gpt-5.1-codex" 3) "gpt-5.1-codex"
        (Except.error "boom")).1).cache.lookup "gpt-5.1-codex" = none
    ∧ (cacheCall ((cacheComplete (cacheCallN "gpt-5.1-codex" 3) "gpt-5.1-codex"
        (Except.error "boom")).1) "gpt-5.1-codex").1.fetchCount = 2
    ∧ (cacheCall ((cacheComplete (cacheCallN "gpt-5.1-codex" 3) "gpt-5.1-codex"
        (Except.ok "INSTR")).1) "gpt-5.1-codex").2 = some (Except.ok "INSTR")
    ∧ (cacheCall ((cacheComplete (cacheCallN "gpt-5.1-codex" 3) "gpt-5.1-codex"
        (Except.ok "INSTR")).1) "gpt-5.1-codex").1 =
      (cacheComplete (cacheCallN "gpt-5.1-codex" 3) "gpt-5.1-codex"
        (Except.ok "INSTR")).1 :=
  instructionCache_single_flight "gpt-5.1-codex" "INSTR" "boom" 3 (by decide)

/-- The two outbound headers set by the fetch hook read back with their
set values, regardless of what the caller supplied. -/
theorem hlookup_outbound (hs : List (String × String)) (key : String) :
    hlookup (hset (hset hs OPENAI_HEADERS_AUTHORIZATION ("Bearer " ++ key))
        OPENAI_HEADERS_CONTENT_TYPE "application/json")
      OPENAI_HEADERS_AUTHORIZATION = some ("Bearer " ++ key)
    ∧ hlookup (hset (hset hs OPENAI_HEADERS_AUTHORIZATION ("Bearer " ++ key))
        OPENAI_HEADERS_CONTENT_TYPE "application/json")
      OPENAI_HEADERS_CONTENT_TYPE = some "application/json" := by
  constructor
  · rw [hlookup_hset, if_neg (by decide), hlookup_hset, if_pos (by decide)]
  · rw [hlookup_hset, if_pos (by decide)]

/-- C9: the request the fetch hook dispatches carries
`Authorization: Bearer <key>` and `Content-Type: application/json`
(set after transformation, overriding any caller-supplied values), the
body produced by the transformer — or the original body when
transformation was skipped — and the rewritten URL. -/
theorem outbound_headers_contract (init : Option RequestInit)
    (tr : Option TransformResult) (url apiKey : String) :
    hlookup (outboundRequest init tr url apiKey).headers OPENAI_HEADERS_AUTHORIZATION =
      some ("Bearer " ++ apiKey)
    ∧ hlookup (outboundRequest init tr url apiKey).headers OPENAI_HEADERS_CONTENT_TYPE =
        some "application/json"
    ∧ (outboundRequest init tr url apiKey).body =
        (match tr with
         | some t => t.updatedInit.body
         | none => init.bind (fun ri => ri.body))
    ∧ (outboundRequest init tr url apiKey).url = url := by
  cases tr with
  | some t =>
    exact ⟨(hlookup_outbound t.updatedInit.headers apiKey).1,
      (hlookup_outbound t.updatedInit.headers apiKey).2, rfl, rfl⟩
  | none =>
    cases init with
    | some ri =>
      exact ⟨(hlookup_outbound ri.headers apiKey).1,
        (hlookup_outbound ri.headers apiKey).2, rfl, rfl⟩
    | none =>
      exact ⟨(hlookup_outbound [] apiKey).1, (hlookup_outbound [] apiKey).2, rfl, rfl⟩

/-- C3 (the code at the failing input): the composed fetch hook parses
the inbound body with `JSON.parse` outside every `try` while capturing
the streaming flag, so a body that is not valid JSON makes the hook
throw instead of forwarding the original request untransformed — the
fail-open catch inside `transformRequestForCodex` is never reached. -/
theorem fetchPipeline_malformedBody_throws :
    prepareDispatch (some { headers := [], body := some "\x7boops" }) =
      Except.error FetchError.inboundJsonParse
    ∧ (jsonParse "\x7boops").isNone = true
    ∧ prepareDispatch
        (some { headers := [],
                body := some "\x7b\"model\":\"gpt-5.1-codex\",\"stream\":true\x7d" }) =
      Except.ok true :=
  ⟨rfl, rfl, rfl⟩

end CodexPlugin
